import Mathlib

/-!
# StatusBot monitoring core — verification development

Shallow embedding of the monitoring/alerting core of the statusBot
repository (src/tests.js, src/system.js) and proofs about it.

Modelling conventions:
* The SQLite store is a list of rows, newest first; the prepared
  `SELECT ... ORDER BY timestamp DESC LIMIT 1` queries become `head?` of a
  filtered list, and `INSERT` becomes prepending a row.
* The Telegram notifier (`sendToAllUsers`) is abstracted as an emitted
  `send` event carrying a structured message tag; alert text contents are
  abstracted to the data that decides which message is sent.
* Each handler returns, besides its value, the ordered trace of store
  reads, message dispatches and store writes it performed, so ordering
  properties can be stated.
* JavaScript numbers holding tick counters are modelled as rationals; the
  integer percentages (`Math.round`, `parseInt`, `~~`) are `Int`.
-/

namespace StatusBot

/-- Severity of a system sample: the code's strings
'healthy' < 'warning' < 'critical'. -/
inductive Sev
  | healthy
  | warning
  | critical
deriving DecidableEq, Repr

/-- Numeric rank of a severity, for stating the max-of-resources rule. -/
def Sev.rank : Sev → Nat
  | .healthy => 0
  | .warning => 1
  | .critical => 2

/-- Maximum of two severities in the order healthy < warning < critical. -/
def Sev.max : Sev → Sev → Sev
  | .critical, _ => .critical
  | _, .critical => .critical
  | .warning, _ => .warning
  | _, .warning => .warning
  | .healthy, .healthy => .healthy

/-- Per-resource severity bucket from the claim: a value is critical when
at or above the critical threshold, else warning when at or above the
warning threshold, else healthy. -/
def bucket (v warn crit : Int) : Sev :=
  if v ≥ crit then .critical else if v ≥ warn then .warning else .healthy

/-- The six configurable thresholds of system.js lines 20-25. -/
structure Thresholds where
  ramWarn : Int
  ramCrit : Int
  cpuWarn : Int
  cpuCrit : Int
  diskWarn : Int
  diskCrit : Int
deriving DecidableEq, Repr

/-- The resources a warning line can mention (the pushed strings are
abstracted to the resource they report). -/
inductive Resource
  | ram
  | cpu
  | disk
deriving DecidableEq, Repr

/-- RAM figures produced by getRamUsage (system.js lines 60-75). -/
structure RamInfo where
  totalMemMB : Int
  usedMemMB : Int
  usagePercent : Int
deriving DecidableEq, Repr

/-- Disk figures produced by getDiskUsage on success (system.js lines
77-107); a failed or unparseable query yields `none` instead. -/
structure DiskInfo where
  totalGB : Int
  usedGB : Int
  availGB : Int
  usagePercent : Int
deriving DecidableEq, Repr

/-- RAM block of checkSystemHealth (system.js lines 131-137): runs first,
overwriting the initial 'healthy' status and pushing its warning. -/
def checkRam (thr : Thresholds) (ram : Int) (st : Sev × List Resource) :
    Sev × List Resource :=
  if ram ≥ thr.ramCrit then (.critical, st.2 ++ [.ram])
  else if ram ≥ thr.ramWarn then (.warning, st.2 ++ [.ram])
  else st

/-- CPU block of checkSystemHealth (system.js lines 140-146): runs second;
its warning branch preserves an already-critical status. -/
def checkCpu (thr : Thresholds) (cpu : Int) (st : Sev × List Resource) :
    Sev × List Resource :=
  if cpu ≥ thr.cpuCrit then (.critical, st.2 ++ [.cpu])
  else if cpu ≥ thr.cpuWarn then
    ((if st.1 = .critical then .critical else .warning), st.2 ++ [.cpu])
  else st

/-- Disk block of checkSystemHealth (system.js lines 149-157): runs last
and only when disk metrics are present. -/
def checkDisk (thr : Thresholds) (disk : Option Int) (st : Sev × List Resource) :
    Sev × List Resource :=
  match disk with
  | none => st
  | some d =>
    if d ≥ thr.diskCrit then (.critical, st.2 ++ [.disk])
    else if d ≥ thr.diskWarn then
      ((if st.1 = .critical then .critical else .warning), st.2 ++ [.disk])
    else st

/-- Status/warnings computation of checkSystemHealth (system.js lines
127-157): RAM, then CPU, then disk, starting from ('healthy', []). -/
def classify (thr : Thresholds) (cpu ram : Int) (disk : Option Int) :
    Sev × List Resource :=
  checkDisk thr disk (checkCpu thr cpu (checkRam thr ram (Sev.healthy, [])))

/-- Structured stand-ins for the Telegram messages the core can send. -/
inductive Msg
  | sysAlert (s : Sev)
  | sysRecovery
  | httpFailure
  | httpRecovery
  | tcpFailure
  | tcpRecovery
deriving DecidableEq, Repr

/-- Observable events of one handler run: the last-status store read, a
notifier dispatch, and the store insert. -/
inductive Ev
  | readLast
  | send (m : Msg)
  | writeStore
deriving DecidableEq, Repr

/-- The messages dispatched in a trace, in order. -/
def sends (t : List Ev) : List Msg :=
  t.filterMap (fun e => match e with | Ev.send m => some m | _ => none)

/-- The part of a trace from the first store write on. -/
def afterFirstWrite (t : List Ev) : List Ev :=
  t.dropWhile (fun e => decide (e ≠ Ev.writeStore))

/-- A row of the system_metrics table (insertSystemMetric, system.js
lines 9-12 and 211-221). -/
structure SysRecord where
  cpu : Int
  ramUsedMB : Int
  ramTotalMB : Int
  ramPct : Int
  diskUsedGB : Option Int
  diskTotalGB : Option Int
  diskPct : Option Int
  status : Sev
  warningMessage : Option (List Resource)
deriving DecidableEq, Repr

/-- Return value of checkSystemHealth: the early 'initializing' return on
the first CPU sample, or a report with the computed status. -/
inductive HealthResult
  | initializing
  | report (status : Sev)
deriving DecidableEq, Repr

/-- Result of one checkSystemHealth run: its return value, its event
trace, and the system_metrics store after the run (newest row first). -/
structure SysOut where
  result : HealthResult
  trace : List Ev
  store : List SysRecord
deriving DecidableEq, Repr

/-- The observable event sequence of one sample-producing
checkSystemHealth run (system.js lines 161-221), as a function of the new
status and the last persisted status: the last-status read, then an alert
when the status changed (or none was recorded) and is not healthy, then a
recovery message when the status changed to healthy and the recorded
previous status exists and was not healthy, then the insert. -/
def systemEvents (status : Sev) (lastStatus : Option Sev) : List Ev :=
  ([Ev.readLast]
    ++ (if (lastStatus = none ∨ lastStatus ≠ some status) ∧ status ≠ Sev.healthy
        then [Ev.send (Msg.sysAlert status)] else [])
    ++ (if (lastStatus = none ∨ lastStatus ≠ some status) ∧ status = Sev.healthy
          ∧ lastStatus ≠ none ∧ lastStatus ≠ some Sev.healthy
        then [Ev.send Msg.sysRecovery] else []))
  ++ [Ev.writeStore]

/-- checkSystemHealth (system.js lines 109-241), taking the already
sampled metrics as inputs: cpuUsage is getCpuUsage's result (`none` on
the baseline-establishing first call), ram is getRamUsage's result, disk
is getDiskUsage's result (`none` when the query failed or parsing
failed). Mirrors the code: early return when cpuUsage is null, status and
warnings via the RAM/CPU/disk blocks, last-status read, alert on
status change to non-healthy, recovery on change to healthy from a
recorded non-healthy status, then the insert. -/
def checkSystemHealth (thr : Thresholds) (cpuUsage : Option Int)
    (ram : RamInfo) (disk : Option DiskInfo) (store : List SysRecord) :
    SysOut :=
  match cpuUsage with
  | none => { result := .initializing, trace := [], store := store }
  | some cpu =>
    let st := classify thr cpu ram.usagePercent (disk.map (·.usagePercent))
    let status := st.1
    let warnings := st.2
    let warningMessage : Option (List Resource) :=
      if warnings = [] then none else some warnings
    let lastStatus : Option Sev := store.head?.map (·.status)
    let row : SysRecord :=
      { cpu := cpu
        ramUsedMB := ram.usedMemMB
        ramTotalMB := ram.totalMemMB
        ramPct := ram.usagePercent
        diskUsedGB := disk.map (·.usedGB)
        diskTotalGB := disk.map (·.totalGB)
        diskPct := disk.map (·.usagePercent)
        status := status
        warningMessage := warningMessage }
    { result := .report status
      trace := systemEvents status lastStatus
      store := row :: store }

/-- One aggregated tick reading, already averaged over the cores as in
getCpuUsage lines 31-44: idle and total ticks as exact rationals. -/
structure CpuReading where
  idle : ℚ
  total : ℚ
deriving DecidableEq, Repr

/-- JavaScript `~~x`: truncation toward zero. In getCpuUsage the operand
is `100 * idleDifference / totalDifference`; when totalDifference is 0
the JavaScript quotient is NaN or ±Infinity and `~~` yields 0, which
coincides with the rational convention q / 0 = 0 used here, so the model
agrees with the code at a zero total delta. -/
def jsTrunc (q : ℚ) : Int :=
  if 0 ≤ q then ⌊q⌋ else ⌈q⌉

/-- JavaScript Math.max on integers. -/
def jsMax (a b : Int) : Int := if a ≤ b then b else a

/-- JavaScript Math.min on integers. -/
def jsMin (a b : Int) : Int := if a ≤ b then a else b

/-- getCpuUsage (system.js lines 30-58) with the module-level
previousCpuInfo baseline passed and returned explicitly: on a missing
baseline store the reading and return null; otherwise compute
100 - ~~(100 * idleDelta / totalDelta), clamp to [0, 100], and overwrite
the baseline with the current reading. -/
def getCpuUsage (prev : Option CpuReading) (cur : CpuReading) :
    Option Int × Option CpuReading :=
  match prev with
  | none => (none, some cur)
  | some p =>
    let idleDifference := cur.idle - p.idle
    let totalDifference := cur.total - p.total
    let cpuPercentage : Int := 100 - jsTrunc (100 * idleDifference / totalDifference)
    (some (jsMax 0 (jsMin 100 cpuPercentage)), some cur)

/-- The two probe kinds; the test_type column's 'http' / 'tcp'. -/
inductive Kind
  | http
  | tcp
deriving DecidableEq, Repr

/-- success / failed, the status column of the tests table. -/
inductive Outcome
  | success
  | failed
deriving DecidableEq, Repr

/-- A row of the tests table (insertTestResult, tests.js lines 6-9). -/
structure TestRecord where
  kind : Kind
  name : String
  target : String
  status : Outcome
  responseTime : Int
  errorMessage : Option String
  isRecovery : Bool
deriving DecidableEq, Repr

/-- getLastTestResult (tests.js lines 11-15): the most recent row with
the same target and test_type; the store holds newest rows first. -/
def lastTestResult (store : List TestRecord) (target : String) (kind : Kind) :
    Option TestRecord :=
  (store.filter (fun r => decide (r.target = target ∧ r.kind = kind))).head?

/-- How the awaited fetch of runHttpTest resolved: a response with some
status code, or a thrown error (timeout, network failure, ...) already
mapped to its error message. -/
inductive HttpEvent
  | response (statusCode : Int)
  | fetchError (msg : String)
deriving DecidableEq, Repr

/-- How one runTcpTest attempt concluded: the timeout timer fired, the
connection completed, or the socket errored. -/
inductive TcpEvent
  | timeout
  | connected
  | sockError (msg : String)
deriving DecidableEq, Repr

/-- Result of one probe run: the inserted row, the event trace, and the
tests store after the run (newest row first). -/
structure ProbeOut where
  record : TestRecord
  trace : List Ev
  store : List TestRecord
deriving DecidableEq, Repr

/-- runHttpTest (tests.js lines 39-119) after the fetch settles. Response
path (lines 56-86): status is success iff the code is < 400, the last
result for (url, 'http') is read, isRecovery is set whenever that row
exists with status failed (regardless of the current status), the row is
inserted, and a message is sent when the status is failed or isRecovery
holds — the recovery text when isRecovery, the failure text otherwise.
Catch path (lines 88-118): a failed row with isRecovery 0 is inserted and
the failure message is always sent. -/
def runHttpTest (store : List TestRecord) (name url : String)
    (ev : HttpEvent) (responseTime : Int) : ProbeOut :=
  match ev with
  | .response code =>
    let status := if code < 400 then Outcome.success else Outcome.failed
    let errorMessage : Option String :=
      if code < 400 then none else some ("HTTP " ++ toString code)
    let lastResult := lastTestResult store url Kind.http
    let isRecovery : Bool :=
      match lastResult with
      | some r => decide (r.status = Outcome.failed)
      | none => false
    let row : TestRecord :=
      { kind := .http, name := name, target := url, status := status
        responseTime := responseTime, errorMessage := errorMessage
        isRecovery := isRecovery }
    let sendEvs : List Ev :=
      if status = Outcome.failed ∨ isRecovery = true then
        [Ev.send (if isRecovery then Msg.httpRecovery else Msg.httpFailure)]
      else []
    { record := row
      trace := [Ev.readLast, Ev.writeStore] ++ sendEvs
      store := row :: store }
  | .fetchError msg =>
    let row : TestRecord :=
      { kind := .http, name := name, target := url, status := .failed
        responseTime := responseTime, errorMessage := some msg
        isRecovery := false }
    { record := row
      trace := [Ev.readLast, Ev.writeStore, Ev.send Msg.httpFailure]
      store := row :: store }

/-- runTcpTest (tests.js lines 121-205) after one of its three callbacks
fires. Timeout (lines 131-151) and socket error (lines 183-203): insert a
failed row with isRecovery 0 and always send the failure message.
Connect (lines 155-181): read the last result for (target, 'tcp'), set
isRecovery when it exists with status failed, insert a success row, and
send the recovery message only when isRecovery holds. -/
def runTcpTest (store : List TestRecord) (name target : String)
    (ev : TcpEvent) (responseTime : Int) : ProbeOut :=
  match ev with
  | .timeout =>
    let row : TestRecord :=
      { kind := .tcp, name := name, target := target, status := .failed
        responseTime := responseTime, errorMessage := some "Connection timeout"
        isRecovery := false }
    { record := row
      trace := [Ev.readLast, Ev.writeStore, Ev.send Msg.tcpFailure]
      store := row :: store }
  | .connected =>
    let lastResult := lastTestResult store target Kind.tcp
    let isRecovery : Bool :=
      match lastResult with
      | some r => decide (r.status = Outcome.failed)
      | none => false
    let row : TestRecord :=
      { kind := .tcp, name := name, target := target, status := .success
        responseTime := responseTime, errorMessage := none
        isRecovery := isRecovery }
    let sendEvs : List Ev :=
      if isRecovery then [Ev.send Msg.tcpRecovery] else []
    { record := row
      trace := [Ev.readLast, Ev.writeStore] ++ sendEvs
      store := row :: store }
  | .sockError msg =>
    let row : TestRecord :=
      { kind := .tcp, name := name, target := target, status := .failed
        responseTime := responseTime, errorMessage := some msg
        isRecovery := false }
    { record := row
      trace := [Ev.readLast, Ev.writeStore, Ev.send Msg.tcpFailure]
      store := row :: store }

/-- JavaScript strings, modelled as character lists for parseTestConfig. -/
abbrev JStr := List Char

/-- The whitespace characters relevant to String.prototype.trim here. -/
def isJsSpace (c : Char) : Bool :=
  c = ' ' || c = '\t' || c = '\n' || c = '\r'

/-- String.prototype.trim: drop whitespace from both ends. -/
def jsTrim (s : JStr) : JStr :=
  ((s.dropWhile isJsSpace).reverse.dropWhile isJsSpace).reverse

/-- String.prototype.split with a one-character separator: every
occurrence separates, neighbouring separators yield empty segments, and
the empty string splits to one empty segment. -/
def splitChar (sep : Char) : JStr → List JStr
  | [] => [[]]
  | c :: rest =>
    match splitChar sep rest with
    | [] => [[c]]
    | h :: t => if c = sep then [] :: h :: t else (c :: h) :: t

/-- Number of occurrences of a separator character. -/
def countSep (sep : Char) : JStr → Nat
  | [] => 0
  | c :: rest => (if c = sep then 1 else 0) + countSep sep rest

/-- One parsed test: a display name and a target address. -/
structure TestConfig where
  name : JStr
  target : JStr
deriving DecidableEq, Repr

/-- Body of the parseTestConfig loop (tests.js lines 21-34): split the
entry on '|' and trim the parts; two parts are name and target; otherwise
the first part is the target and the name falls back through
split('/').pop() || split(':')[0] || target. -/
def parseEntry (config : JStr) : TestConfig :=
  let parts := (splitChar '|' config).map jsTrim
  match parts with
  | [n, t] => { name := n, target := t }
  | _ =>
    let target := parts.headD []
    let name :=
      let popped := (splitChar '/' target).getLastD []
      if !popped.isEmpty then popped
      else
        let first := (splitChar ':' target).headD []
        if !first.isEmpty then first else target
    { name := name, target := target }

/-- parseTestConfig (tests.js lines 17-37): split the configuration
string on ',', trim every entry, drop the entries that trimmed to
nothing, and parse each remaining entry. -/
def parseTestConfig (s : JStr) : List TestConfig :=
  (((splitChar ',' s).map jsTrim).filter (fun item => !item.isEmpty)).map parseEntry

/-- From the claim: the substring after the last '/'. -/
def afterLastSlash (t : JStr) : JStr :=
  (t.reverse.takeWhile (fun c => decide (c ≠ '/'))).reverse

/-- From the claim: the substring before the first ':'. -/
def beforeFirstColon (t : JStr) : JStr :=
  t.takeWhile (fun c => decide (c ≠ ':'))

/-- From the claim: the derived name of a nameless target — the substring
after the last '/', or, when that is empty, the substring before the
first ':', or otherwise the whole target. -/
def derivedNameSpec (t : JStr) : JStr :=
  if afterLastSlash t ≠ [] then afterLastSlash t
  else if beforeFirstColon t ≠ [] then beforeFirstColon t
  else t

/-- From the claim: what one surviving entry should parse to — a
'Name|target' entry (exactly one '|') yields both parts trimmed, and an
entry with no '|' yields itself as target with the derived name. -/
def entrySpec (e : JStr) : TestConfig :=
  if countSep '|' e = 1 then
    { name := jsTrim (e.takeWhile (fun c => decide (c ≠ '|')))
      target := jsTrim ((e.dropWhile (fun c => decide (c ≠ '|'))).tail) }
  else
    { name := derivedNameSpec e, target := e }

/-- The default thresholds of system.js lines 20-25: RAM 85/95,
CPU 80/90, disk 85/95. -/
def defThr : Thresholds := ⟨85, 95, 80, 90, 85, 95⟩

/-! ## Theorems -/

lemma sevMax_healthy_right (s : Sev) : Sev.max s Sev.healthy = s := by
  cases s <;> rfl

lemma classify_fst (thr : Thresholds) (cpu ram : Int) (disk : Option Int) :
    (classify thr cpu ram disk).1 =
      Sev.max (bucket cpu thr.cpuWarn thr.cpuCrit)
        (Sev.max (bucket ram thr.ramWarn thr.ramCrit)
          ((disk.map (fun d => bucket d thr.diskWarn thr.diskCrit)).getD Sev.healthy)) := by
  cases disk <;>
    simp only [classify, checkRam, checkCpu, checkDisk, bucket, Option.map_none',
      Option.map_some', Option.getD_none, Option.getD_some] <;>
    split_ifs <;> simp_all [Sev.max]

lemma jsClamp_nonneg (x : Int) : 0 ≤ jsMax 0 (jsMin 100 x) := by
  simp only [jsMax, jsMin]; split_ifs <;> omega

lemma jsClamp_le_100 (x : Int) : jsMax 0 (jsMin 100 x) ≤ 100 := by
  simp only [jsMax, jsMin]; split_ifs <;> omega

/-- Claim C5: the first CPU sampling call after (re)start only records the
baseline and yields no percentage, and checkSystemHealth then returns
initializing without writing anything; every call with a baseline yields
a percentage in [0, 100] (for every pair of readings, a zero total-tick
delta included) and that sample's store write would proceed as usual. -/
theorem getCpuUsage_first_sample (r p : CpuReading) (thr : Thresholds)
    (ram : RamInfo) (disk : Option DiskInfo) (store : List SysRecord) :
    getCpuUsage none r = (none, some r)
    ∧ (∃ v : Int, getCpuUsage (some p) r = (some v, some r) ∧ 0 ≤ v ∧ v ≤ 100)
    ∧ checkSystemHealth thr none ram disk store =
        { result := HealthResult.initializing, trace := [], store := store } :=
  ⟨rfl, ⟨_, rfl, jsClamp_nonneg _, jsClamp_le_100 _⟩, rfl⟩

/-- Claim C6: the overall severity of a produced sample is the maximum of the
per-resource severities of CPU, RAM and (when present) disk, each
bucketed by its own thresholds; in particular RAM at 90% under the
default thresholds (warning 85, critical 95) yields warning, and RAM at
96% yields critical even with CPU and disk healthy. -/
theorem classify_status_eq_max_bucket (thr : Thresholds) (cpu ram : Int)
    (disk : Option Int) :
    (classify thr cpu ram disk).1 =
      Sev.max (bucket cpu thr.cpuWarn thr.cpuCrit)
        (Sev.max (bucket ram thr.ramWarn thr.ramCrit)
          ((disk.map (fun d => bucket d thr.diskWarn thr.diskCrit)).getD Sev.healthy))
    ∧ (classify defThr 10 90 none).1 = Sev.warning
    ∧ (classify defThr 10 96 (some 50)).1 = Sev.critical :=
  ⟨classify_fst thr cpu ram disk, by decide, by decide⟩

/-- Claim C9: when the disk-usage query fails (no disk metrics), the sample is
still produced and persisted with all three disk fields null, and its
severity is the maximum of the CPU and RAM buckets alone. -/
theorem checkSystemHealth_disk_absent (thr : Thresholds) (cpu : Int)
    (ram : RamInfo) (store : List SysRecord) :
    ∃ r : SysRecord,
      (checkSystemHealth thr (some cpu) ram none store).store = r :: store
      ∧ r.diskUsedGB = none ∧ r.diskTotalGB = none ∧ r.diskPct = none
      ∧ r.status = Sev.max (bucket cpu thr.cpuWarn thr.cpuCrit)
          (bucket ram.usagePercent thr.ramWarn thr.ramCrit)
      ∧ (checkSystemHealth thr (some cpu) ram none store).result =
          HealthResult.report r.status := by
  refine ⟨_, rfl, rfl, rfl, rfl, ?_, rfl⟩
  show (classify thr cpu ram.usagePercent ((none : Option DiskInfo).map _)).1 = _
  rw [show ((none : Option DiskInfo).map fun d => d.usagePercent) = none from rfl,
    classify_fst]
  simp [sevMax_healthy_right]

/-- Claim C1: the claim fails on the code. With a prior failed result stored
for (http, https://example.com), an HTTP probe whose fetch resolves with
status 500 — a failed outcome — still records is_recovery = 1: tests.js
line 65 computes isRecovery from the previous row only, without
requiring the current outcome to be success. -/
theorem runHttpTest_flags_recovery_on_failed_outcome :
    (runHttpTest
      [{ kind := .http, name := "API", target := "https://example.com",
         status := .failed, responseTime := 10, errorMessage := some "HTTP 500",
         isRecovery := false }]
      "API" "https://example.com" (.response 500) 5).record.status = Outcome.failed
    ∧ (runHttpTest
      [{ kind := .http, name := "API", target := "https://example.com",
         status := .failed, responseTime := 10, errorMessage := some "HTTP 500",
         isRecovery := false }]
      "API" "https://example.com" (.response 500) 5).record.isRecovery = true := by
  decide

/-- Claim C3: the claim fails on the code. On the same repeated-failure HTTP
cycle (status 503 after a stored failed result) the code sends the
recovery message instead of the unconditional failure alert (tests.js
lines 78-84). -/
theorem runHttpTest_failed_cycle_sends_recovery :
    (runHttpTest
      [{ kind := .http, name := "Web", target := "https://web.io",
         status := .failed, responseTime := 3, errorMessage := some "HTTP 503",
         isRecovery := false }]
      "Web" "https://web.io" (.response 503) 7).record.status = Outcome.failed
    ∧ sends (runHttpTest
      [{ kind := .http, name := "Web", target := "https://web.io",
         status := .failed, responseTime := 3, errorMessage := some "HTTP 503",
         isRecovery := false }]
      "Web" "https://web.io" (.response 503) 7).trace = [Msg.httpRecovery]
    ∧ Msg.httpFailure ∉ sends (runHttpTest
      [{ kind := .http, name := "Web", target := "https://web.io",
         status := .failed, responseTime := 3, errorMessage := some "HTTP 503",
         isRecovery := false }]
      "Web" "https://web.io" (.response 503) 7).trace := by
  decide

/-- Claim C4 counterexample: an HTTP probe recovering (status 200 after a
stored failed result) writes its row to the store at trace position 1 and
only then dispatches the recovery message — a dispatch after the store
write, refuting the claim that every cycle dispatches before writing. -/
theorem runHttpTest_dispatch_after_write :
    (runHttpTest
      [{ kind := .http, name := "Site", target := "https://site.org",
         status := .failed, responseTime := 9, errorMessage := some "HTTP 502",
         isRecovery := false }]
      "Site" "https://site.org" (.response 200) 4).trace
      = [Ev.readLast, Ev.writeStore, Ev.send Msg.httpRecovery]
    ∧ Ev.send Msg.httpRecovery ∈ afterFirstWrite (runHttpTest
      [{ kind := .http, name := "Site", target := "https://site.org",
         status := .failed, responseTime := 9, errorMessage := some "HTTP 502",
         isRecovery := false }]
      "Site" "https://site.org" (.response 200) 4).trace := by
  decide

/-- Claim C7 counterexample: with CPU at 85% and RAM at 90% (both at warning
under the default thresholds) the persisted warning message lists RAM
before CPU — the code pushes the RAM line first (system.js lines
131-146) — refuting the claimed CPU-first order. -/
theorem checkSystemHealth_warnings_ram_before_cpu :
    ((checkSystemHealth defThr (some 85) ⟨16000, 14400, 90⟩ none
        []).store.head?.map (·.warningMessage))
      = some (some [Resource.ram, Resource.cpu])
    ∧ ¬ ((checkSystemHealth defThr (some 85) ⟨16000, 14400, 90⟩ none
        []).store.head?.map (·.warningMessage))
      = some (some [Resource.cpu, Resource.ram]) := by
  decide

/-- Claim C8 counterexample: from baseline (idle 0, total 0) to reading
(idle 1, total 3) the code produces 67 = 100 - ~~(100/3), but the
claimed exact formula clamp(100 - 100 * (1/3)) equals 200/3 ≠ 67: the
claim omits the truncation. -/
theorem getCpuUsage_truncates :
    getCpuUsage (some ⟨0, 0⟩) ⟨1, 3⟩ = (some 67, some ⟨1, 3⟩)
    ∧ ¬ ((67 : ℚ) =
        Max.max 0 (Min.min 100 (100 - 100 * (((1 : ℚ) - 0) / ((3 : ℚ) - 0))))) := by
  constructor
  · simp only [getCpuUsage, jsTrunc, jsMax, jsMin]
    norm_num
  · norm_num

lemma systemEvents_spec (s : Sev) (last : Option Sev) :
    (Msg.sysAlert s ∈ sends (systemEvents s last) ↔ last ≠ some s ∧ s ≠ Sev.healthy)
    ∧ (Msg.sysRecovery ∈ sends (systemEvents s last) ↔
        s = Sev.healthy ∧ last ≠ none ∧ last ≠ some Sev.healthy)
    ∧ (last ≠ some s ∧ s ≠ Sev.healthy →
        sends (systemEvents s last) = [Msg.sysAlert s])
    ∧ sends (systemEvents s (some s)) = [] := by
  rcases last with _ | p
  · cases s <;> decide
  · cases s <;> cases p <;> decide

/-- Claim C2: a produced system sample with severity S, against the last
persisted severity P, sends the alert iff S differs from P (a missing P
counting as different) and S is not healthy, and sends the recovery
message iff S is healthy and P exists and is not healthy; when S is a
fresh non-healthy severity the cycle sends exactly the one alert, and an
immediately following cycle with the same metrics sends nothing. -/
theorem checkSystemHealth_alert_transition (thr : Thresholds) (cpu : Int)
    (ram : RamInfo) (disk : Option DiskInfo) (store : List SysRecord) :
    (Msg.sysAlert (classify thr cpu ram.usagePercent (disk.map (·.usagePercent))).1
        ∈ sends (checkSystemHealth thr (some cpu) ram disk store).trace ↔
      store.head?.map (·.status)
          ≠ some (classify thr cpu ram.usagePercent (disk.map (·.usagePercent))).1
        ∧ (classify thr cpu ram.usagePercent (disk.map (·.usagePercent))).1 ≠ Sev.healthy)
    ∧ (Msg.sysRecovery ∈ sends (checkSystemHealth thr (some cpu) ram disk store).trace ↔
      (classify thr cpu ram.usagePercent (disk.map (·.usagePercent))).1 = Sev.healthy
        ∧ store.head?.map (·.status) ≠ none
        ∧ store.head?.map (·.status) ≠ some Sev.healthy)
    ∧ (store.head?.map (·.status)
          ≠ some (classify thr cpu ram.usagePercent (disk.map (·.usagePercent))).1
        ∧ (classify thr cpu ram.usagePercent (disk.map (·.usagePercent))).1 ≠ Sev.healthy →
      sends (checkSystemHealth thr (some cpu) ram disk store).trace =
        [Msg.sysAlert (classify thr cpu ram.usagePercent (disk.map (·.usagePercent))).1])
    ∧ ((classify thr cpu ram.usagePercent (disk.map (·.usagePercent))).1 ≠ Sev.healthy →
      sends (checkSystemHealth thr (some cpu) ram disk
        (checkSystemHealth thr (some cpu) ram disk store).store).trace = []) := by
  obtain ⟨h1, h2, h3, _⟩ :=
    systemEvents_spec (classify thr cpu ram.usagePercent (disk.map (·.usagePercent))).1
      (store.head?.map (·.status))
  refine ⟨h1, h2, h3, fun _ => ?_⟩
  have htr : (checkSystemHealth thr (some cpu) ram disk
      (checkSystemHealth thr (some cpu) ram disk store).store).trace =
      systemEvents (classify thr cpu ram.usagePercent (disk.map (·.usagePercent))).1
        (some (classify thr cpu ram.usagePercent (disk.map (·.usagePercent))).1) := rfl
  rw [htr]
  exact (systemEvents_spec
    (classify thr cpu ram.usagePercent (disk.map (·.usagePercent))).1 none).2.2.2

/-- Claim C8 (amended): with a baseline, the produced percentage is
100 - trunc(100 * idle_delta / total_delta) clamped to [0, 100], where
trunc truncates toward zero and a zero total delta makes the truncated
quotient term 0, so the result is 100; the baseline is then overwritten
with the current reading. -/
theorem getCpuUsage_formula (p r : CpuReading) (i : ℚ) :
    getCpuUsage (some p) r =
      (some (jsMax 0 (jsMin 100
        (100 - jsTrunc (100 * (r.idle - p.idle) / (r.total - p.total))))), some r)
    ∧ (getCpuUsage (some p) { idle := i, total := p.total }).1 = some 100 := by
  refine ⟨rfl, ?_⟩
  simp [getCpuUsage, jsTrunc, jsMax, jsMin]

/-- Claim C2 witness: a fresh critical sample on an empty store sends
exactly the one alert, and the identical next cycle sends nothing. -/
theorem checkSystemHealth_alert_transition_witness :
    sends (checkSystemHealth defThr (some 0) ⟨16000, 15360, 96⟩ none []).trace =
      [Msg.sysAlert (classify defThr 0 (96 : Int) none).1]
    ∧ sends (checkSystemHealth defThr (some 0) ⟨16000, 15360, 96⟩ none
        (checkSystemHealth defThr (some 0) ⟨16000, 15360, 96⟩ none []).store).trace = [] := by
  obtain ⟨-, -, h3, h4⟩ :=
    checkSystemHealth_alert_transition defThr 0 ⟨16000, 15360, 96⟩ none []
  exact ⟨h3 ⟨by decide, by decide⟩, h4 (by decide)⟩

lemma systemEvents_shape (s : Sev) (last : Option Sev) :
    ∃ msgs : List Msg,
      systemEvents s last = Ev.readLast :: (msgs.map Ev.send ++ [Ev.writeStore]) := by
  simp only [systemEvents]
  split_ifs <;>
    first
      | exact ⟨[_, _], rfl⟩
      | exact ⟨[_], rfl⟩
      | exact ⟨[], rfl⟩

/-- Claim C4 (amended): the system-health path dispatches its alert or
recovery message before the store write (read, dispatches, write), but
the probe paths write the result row before any dispatch (read, write,
dispatches); in every path the last-status read comes first, so the
transition is always computed from the prior cycle. -/
theorem dispatch_store_order (thr : Thresholds) (cpu : Int) (ram : RamInfo)
    (disk : Option DiskInfo) (sstore : List SysRecord) (tstore : List TestRecord)
    (name url tgt : String) (hev : HttpEvent) (tev : TcpEvent) (rt : Int) :
    (∃ msgs : List Msg,
      (checkSystemHealth thr (some cpu) ram disk sstore).trace =
        Ev.readLast :: (msgs.map Ev.send ++ [Ev.writeStore]))
    ∧ (∃ msgs : List Msg,
      (runHttpTest tstore name url hev rt).trace =
        Ev.readLast :: Ev.writeStore :: msgs.map Ev.send)
    ∧ (∃ msgs : List Msg,
      (runTcpTest tstore name tgt tev rt).trace =
        Ev.readLast :: Ev.writeStore :: msgs.map Ev.send) := by
  refine ⟨systemEvents_shape _ _, ?_, ?_⟩
  · cases hev with
    | response code =>
      simp only [runHttpTest]
      split_ifs <;> first | exact ⟨[_], rfl⟩ | exact ⟨[], rfl⟩
    | fetchError msg => exact ⟨[_], rfl⟩
  · cases tev with
    | timeout => exact ⟨[_], rfl⟩
    | connected =>
      simp only [runTcpTest]
      split_ifs <;> first | exact ⟨[_], rfl⟩ | exact ⟨[], rfl⟩
    | sockError msg => exact ⟨[_], rfl⟩

lemma checkRam_snd (thr : Thresholds) (ram : Int) (st : Sev × List Resource)
    (h1 : thr.ramWarn ≤ thr.ramCrit) :
    (checkRam thr ram st).2 =
      st.2 ++ (if ram ≥ thr.ramWarn then [Resource.ram] else []) := by
  unfold checkRam
  split_ifs <;> first | rfl | omega | simp

lemma checkCpu_snd (thr : Thresholds) (cpu : Int) (st : Sev × List Resource)
    (h2 : thr.cpuWarn ≤ thr.cpuCrit) :
    (checkCpu thr cpu st).2 =
      st.2 ++ (if cpu ≥ thr.cpuWarn then [Resource.cpu] else []) := by
  unfold checkCpu
  split_ifs <;> first | rfl | omega | simp

lemma checkDisk_snd (thr : Thresholds) (disk : Option Int) (st : Sev × List Resource)
    (h3 : thr.diskWarn ≤ thr.diskCrit) :
    (checkDisk thr disk st).2 =
      st.2 ++ (match disk with
        | none => []
        | some d => if d ≥ thr.diskWarn then [Resource.disk] else []) := by
  cases disk with
  | none => simp [checkDisk]
  | some d =>
    by_cases hc : d ≥ thr.diskCrit <;> by_cases hw : d ≥ thr.diskWarn <;>
      simp [checkDisk, hc, hw] <;> omega

lemma classify_snd (thr : Thresholds) (cpu ram : Int) (disk : Option Int)
    (h1 : thr.ramWarn ≤ thr.ramCrit) (h2 : thr.cpuWarn ≤ thr.cpuCrit)
    (h3 : thr.diskWarn ≤ thr.diskCrit) :
    (classify thr cpu ram disk).2 =
      (if ram ≥ thr.ramWarn then [Resource.ram] else [])
        ++ (if cpu ≥ thr.cpuWarn then [Resource.cpu] else [])
        ++ (match disk with
            | none => []
            | some d => if d ≥ thr.diskWarn then [Resource.disk] else []) := by
  unfold classify
  rw [checkDisk_snd thr disk _ h3, checkCpu_snd thr cpu _ h2, checkRam_snd thr ram _ h1]
  simp [List.append_assoc]

/-- Claim C7 (amended): under sane thresholds (warning at most critical
for each resource) the persisted warning message lists exactly the
resources at or above their warning thresholds, in the order RAM first,
then CPU, then disk (skipped when its metrics are absent), and is null
when no resource reaches its warning threshold. -/
theorem checkSystemHealth_warning_message (thr : Thresholds) (cpu : Int)
    (ram : RamInfo) (disk : Option DiskInfo) (store : List SysRecord)
    (h1 : thr.ramWarn ≤ thr.ramCrit) (h2 : thr.cpuWarn ≤ thr.cpuCrit)
    (h3 : thr.diskWarn ≤ thr.diskCrit) :
    ∃ r : SysRecord,
      (checkSystemHealth thr (some cpu) ram disk store).store = r :: store
      ∧ r.warningMessage =
        (if (if ram.usagePercent ≥ thr.ramWarn then [Resource.ram] else [])
            ++ (if cpu ≥ thr.cpuWarn then [Resource.cpu] else [])
            ++ (match disk with
                | none => []
                | some d =>
                  if d.usagePercent ≥ thr.diskWarn then [Resource.disk] else []) = []
        then none
        else some ((if ram.usagePercent ≥ thr.ramWarn then [Resource.ram] else [])
            ++ (if cpu ≥ thr.cpuWarn then [Resource.cpu] else [])
            ++ (match disk with
                | none => []
                | some d =>
                  if d.usagePercent ≥ thr.diskWarn then [Resource.disk] else []))) := by
  refine ⟨_, rfl, ?_⟩
  show (if (classify thr cpu ram.usagePercent (disk.map (·.usagePercent))).2 = []
      then none
      else some (classify thr cpu ram.usagePercent (disk.map (·.usagePercent))).2) = _
  rw [classify_snd thr cpu ram.usagePercent (disk.map (·.usagePercent)) h1 h2 h3]
  cases disk <;> rfl

/-- Claim C7 witness: with the default thresholds, CPU 85, RAM 90 and
disk 90 the persisted message lists RAM, CPU and disk in that order. -/
theorem checkSystemHealth_warning_message_witness :
    ∃ r : SysRecord,
      (checkSystemHealth defThr (some 85) ⟨16000, 14400, 90⟩
          (some ⟨100, 90, 10, 90⟩) []).store = [r]
      ∧ r.warningMessage = some [Resource.ram, Resource.cpu, Resource.disk] := by
  obtain ⟨r, hr, hm⟩ :=
    checkSystemHealth_warning_message defThr 85 ⟨16000, 14400, 90⟩
      (some ⟨100, 90, 10, 90⟩) [] (by decide) (by decide) (by decide)
  exact ⟨r, hr, by rw [hm]; decide⟩

lemma splitChar_ne_nil (sep : Char) (l : JStr) : splitChar sep l ≠ [] := by
  cases l with
  | nil => simp [splitChar]
  | cons c rest =>
    simp only [splitChar]
    rcases h : splitChar sep rest with _ | ⟨h', t⟩
    · simp
    · split_ifs <;> simp

lemma splitChar_length (sep : Char) (l : JStr) :
    (splitChar sep l).length = countSep sep l + 1 := by
  induction l with
  | nil => rfl
  | cons c rest ih =>
    simp only [splitChar, countSep]
    rcases h : splitChar sep rest with _ | ⟨h', t⟩
    · exact absurd h (splitChar_ne_nil sep rest)
    · rw [h] at ih
      split_ifs with hc <;> simp_all <;> omega

lemma splitChar_headD (sep : Char) (l : JStr) :
    (splitChar sep l).headD [] = l.takeWhile (fun c => decide (c ≠ sep)) := by
  induction l with
  | nil => rfl
  | cons c rest ih =>
    simp only [splitChar]
    rcases h : splitChar sep rest with _ | ⟨h', t⟩
    · exact absurd h (splitChar_ne_nil sep rest)
    · rw [h] at ih
      split_ifs with hc
      · simp [List.takeWhile_cons, hc]
      · simp_all [List.takeWhile_cons, hc]

lemma countSep_zero_split (sep : Char) (l : JStr) (h : countSep sep l = 0) :
    splitChar sep l = [l] := by
  induction l with
  | nil => rfl
  | cons c rest ih =>
    simp only [countSep] at h
    have hc : ¬ c = sep := by intro hc; simp [hc] at h
    have hr : countSep sep rest = 0 := by omega
    simp only [splitChar, ih hr]
    simp [hc]

lemma splitChar_pos (sep : Char) (l : JStr) (h : 1 ≤ countSep sep l) :
    splitChar sep l =
      l.takeWhile (fun c => decide (c ≠ sep))
        :: splitChar sep ((l.dropWhile (fun c => decide (c ≠ sep))).tail) := by
  induction l with
  | nil => simp [countSep] at h
  | cons c rest ih =>
    by_cases hc : c = sep
    · subst hc
      simp only [splitChar]
      rcases hr : splitChar c rest with _ | ⟨h', t⟩
      · exact absurd hr (splitChar_ne_nil c rest)
      · simp [List.takeWhile_cons, List.dropWhile_cons, hr]
    · have hrest : 1 ≤ countSep sep rest := by
        simp only [countSep] at h
        simpa [hc] using h
      simp only [splitChar]
      rw [ih hrest]
      simp [List.takeWhile_cons, List.dropWhile_cons, hc]

lemma countSep_dropWhile_tail (sep : Char) (l : JStr) (h : 1 ≤ countSep sep l) :
    countSep sep ((l.dropWhile (fun c => decide (c ≠ sep))).tail) =
      countSep sep l - 1 := by
  induction l with
  | nil => simp [countSep] at h
  | cons c rest ih =>
    by_cases hc : c = sep
    · subst hc
      simp [List.dropWhile_cons, countSep]
    · have hrest : 1 ≤ countSep sep rest := by
        simp only [countSep] at h
        simpa [hc] using h
      have hdw : (c :: rest).dropWhile (fun c => decide (c ≠ sep)) =
          rest.dropWhile (fun c => decide (c ≠ sep)) := by
        simp [List.dropWhile_cons, hc]
      rw [hdw, ih hrest]
      simp only [countSep, if_neg hc]
      omega

lemma splitChar_count_one (sep : Char) (l : JStr) (h : countSep sep l = 1) :
    splitChar sep l =
      [l.takeWhile (fun c => decide (c ≠ sep)),
       (l.dropWhile (fun c => decide (c ≠ sep))).tail] := by
  rw [splitChar_pos sep l (by omega)]
  rw [countSep_zero_split sep _ (by rw [countSep_dropWhile_tail sep l (by omega)]; omega)]


lemma takeWhile_append_neg {p : Char → Bool} {xs : JStr} (ys : JStr)
    (h : ∃ x ∈ xs, p x = false) :
    (xs ++ ys).takeWhile p = xs.takeWhile p := by
  induction xs with
  | nil => rcases h with ⟨x, hx, _⟩; simp at hx
  | cons a l ih =>
    by_cases ha : p a
    · simp only [List.cons_append, List.takeWhile_cons_of_pos ha]
      rcases h with ⟨x, hx, hpx⟩
      rcases List.mem_cons.mp hx with rfl | hxl
      · rw [ha] at hpx; cases hpx
      · rw [ih ⟨x, hxl, hpx⟩]
    · simp only [List.cons_append]
      rw [List.takeWhile_cons_of_neg ha, List.takeWhile_cons_of_neg ha]

lemma takeWhile_append_pos {p : Char → Bool} {xs : JStr} (ys : JStr)
    (h : ∀ x ∈ xs, p x = true) :
    (xs ++ ys).takeWhile p = xs ++ ys.takeWhile p := by
  induction xs with
  | nil => simp
  | cons a l ih =>
    have ha : p a := h a (by simp)
    simp only [List.cons_append, List.takeWhile_cons_of_pos ha]
    rw [ih (fun x hx => h x (by simp [hx]))]

lemma countSep_zero_all (sep : Char) (l : JStr) (h : countSep sep l = 0) :
    ∀ x ∈ l, (fun c => decide (c ≠ sep)) x = true := by
  induction l with
  | nil => simp
  | cons c rest ih =>
    simp only [countSep] at h
    have hc : ¬ c = sep := by intro hc; simp [hc] at h
    intro x hx
    rcases List.mem_cons.mp hx with rfl | hxl
    · simp [hc]
    · exact ih (by omega) x hxl

lemma countSep_pos_ex (sep : Char) (l : JStr) (h : 1 ≤ countSep sep l) :
    ∃ x ∈ l, (fun c => decide (c ≠ sep)) x = false := by
  induction l with
  | nil => simp [countSep] at h
  | cons c rest ih =>
    by_cases hc : c = sep
    · exact ⟨c, by simp, by simp [hc]⟩
    · have hrest : 1 ≤ countSep sep rest := by
        simp only [countSep] at h
        simpa [hc] using h
      rcases ih hrest with ⟨x, hx, hpx⟩
      exact ⟨x, by simp [hx], hpx⟩

lemma takeWhile_all {p : Char → Bool} {xs : JStr} (h : ∀ x ∈ xs, p x = true) :
    xs.takeWhile p = xs := by
  induction xs with
  | nil => rfl
  | cons a l ih =>
    rw [List.takeWhile_cons_of_pos (h a (by simp)), ih (fun x hx => h x (by simp [hx]))]

lemma takeWhile_append_last_neg (p : Char → Bool) (xs : JStr) (c : Char)
    (hc : p c = false) : (xs ++ [c]).takeWhile p = xs.takeWhile p := by
  by_cases h : ∀ x ∈ xs, p x = true
  · rw [takeWhile_append_pos _ h, takeWhile_all h,
      List.takeWhile_cons_of_neg (by simp [hc]), List.append_nil]
  · push_neg at h
    rcases h with ⟨x, hx, hpx⟩
    exact takeWhile_append_neg _ ⟨x, hx, by simpa using hpx⟩

lemma countSep_append (sep : Char) (xs ys : JStr) :
    countSep sep (xs ++ ys) = countSep sep xs + countSep sep ys := by
  induction xs with
  | nil => simp [countSep]
  | cons a l ih =>
    rw [List.cons_append]
    simp only [countSep]
    rw [ih]
    omega

lemma countSep_reverse (sep : Char) (l : JStr) :
    countSep sep l.reverse = countSep sep l := by
  induction l with
  | nil => rfl
  | cons c rest ih =>
    simp only [List.reverse_cons, countSep_append, ih, countSep]
    omega

lemma splitChar_getLastD (sep : Char) (l : JStr) :
    (splitChar sep l).getLastD [] =
      (l.reverse.takeWhile (fun c => decide (c ≠ sep))).reverse := by
  induction l with
  | nil => rfl
  | cons c rest ih =>
    simp only [splitChar]
    rcases hr : splitChar sep rest with _ | ⟨h0, t⟩
    · exact absurd hr (splitChar_ne_nil sep rest)
    · rw [hr] at ih
      have hm : (match h0 :: t with
          | [] => [[c]]
          | h :: t => if c = sep then [] :: h :: t else (c :: h) :: t) =
          (if c = sep then [] :: h0 :: t else ((c :: h0) :: t)) := rfl
      rw [hm, List.reverse_cons]
      by_cases hc : c = sep
      · rw [if_pos hc, takeWhile_append_last_neg _ _ _ (by simp [hc]),
          List.getLastD_cons, ← ih]
      · rw [if_neg hc]
        rcases t with _ | ⟨t0, ts⟩
        · have hlen := splitChar_length sep rest
          rw [hr] at hlen
          have hcount : countSep sep rest = 0 := by simp at hlen; omega
          have hrest : h0 = rest := by
            have := countSep_zero_split sep rest hcount
            rw [hr] at this
            simpa using this
          subst hrest
          have hall : ∀ x ∈ List.reverse h0, (fun c => decide (c ≠ sep)) x = true := by
            intro x hx
            exact countSep_zero_all sep h0 hcount x (List.mem_reverse.mp hx)
          rw [takeWhile_append_pos _ hall,
            List.takeWhile_cons_of_pos (by simp [hc])]
          simp
        · have hlen := splitChar_length sep rest
          rw [hr] at hlen
          have hcount : 1 ≤ countSep sep rest := by simp at hlen; omega
          have hex : ∃ x ∈ rest.reverse, (fun c => decide (c ≠ sep)) x = false :=
            countSep_pos_ex sep (List.reverse rest) (by rwa [countSep_reverse])
          rw [takeWhile_append_neg _ hex, ← ih]
          simp [List.getLastD_cons]

lemma dropWhile_dropWhile (p : Char → Bool) (l : JStr) :
    (l.dropWhile p).dropWhile p = l.dropWhile p := by
  induction l with
  | nil => rfl
  | cons a t ih =>
    by_cases ha : p a
    · rw [List.dropWhile_cons_of_pos ha, ih]
    · rw [List.dropWhile_cons_of_neg ha, List.dropWhile_cons_of_neg ha]

lemma dropWhile_head_neg (p : Char → Bool) (l : JStr) :
    l.dropWhile p = [] ∨ ∃ h t, l.dropWhile p = h :: t ∧ p h = false := by
  induction l with
  | nil => exact Or.inl rfl
  | cons a t ih =>
    by_cases ha : p a
    · rw [List.dropWhile_cons_of_pos ha]; exact ih
    · exact Or.inr ⟨a, t, List.dropWhile_cons_of_neg ha, by simpa using ha⟩

lemma dropWhile_suffix_ex (p : Char → Bool) (l : JStr) :
    ∃ t, t ++ l.dropWhile p = l := by
  induction l with
  | nil => exact ⟨[], rfl⟩
  | cons a t ih =>
    by_cases ha : p a
    · rcases ih with ⟨t0, ht0⟩
      exact ⟨a :: t0, by rw [List.dropWhile_cons_of_pos ha, List.cons_append, ht0]⟩
    · exact ⟨[], by rw [List.dropWhile_cons_of_neg ha, List.nil_append]⟩

lemma dropWhile_jsTrim (x : JStr) :
    (jsTrim x).dropWhile isJsSpace = jsTrim x := by
  rcases hj : jsTrim x with _ | ⟨h, t2⟩
  · rfl
  · have hu : ∃ t, t ++ (x.dropWhile isJsSpace).reverse.dropWhile isJsSpace =
        (x.dropWhile isJsSpace).reverse := dropWhile_suffix_ex _ _
    rcases hu with ⟨t0, ht0⟩
    have hx : x.dropWhile isJsSpace = jsTrim x ++ t0.reverse := by
      have := congrArg List.reverse ht0
      simpa [jsTrim] using this.symm
    have hhead : isJsSpace h = false := by
      rcases dropWhile_head_neg isJsSpace x with h1 | ⟨h2, t3, h3, h4⟩
      · rw [h1, hj] at hx
        simp at hx
      · rw [h3, hj] at hx
        rw [List.cons_append] at hx
        obtain ⟨rfl, -⟩ := List.cons.injEq .. ▸ hx
        exact h4
    rw [List.dropWhile_cons_of_neg (by simp [hhead])]

lemma dropWhile_jsTrim_reverse (x : JStr) :
    (jsTrim x).reverse.dropWhile isJsSpace = (jsTrim x).reverse := by
  have h1 : (jsTrim x).reverse = (x.dropWhile isJsSpace).reverse.dropWhile isJsSpace := by
    simp [jsTrim]
  rw [h1, dropWhile_dropWhile]

lemma jsTrim_idem (x : JStr) : jsTrim (jsTrim x) = jsTrim x := by
  show ((((jsTrim x).dropWhile isJsSpace).reverse).dropWhile isJsSpace).reverse = jsTrim x
  rw [dropWhile_jsTrim, dropWhile_jsTrim_reverse, List.reverse_reverse]

lemma parseEntry_onepipe (e : JStr) (h1 : countSep '|' e = 1) :
    parseEntry e =
      { name := jsTrim (e.takeWhile (fun c => decide (c ≠ '|'))),
        target := jsTrim ((e.dropWhile (fun c => decide (c ≠ '|'))).tail) } := by
  unfold parseEntry
  rw [splitChar_count_one '|' e h1]
  rfl

lemma parseEntry_nopipe (e : JStr) (he : jsTrim e = e) (h0 : countSep '|' e = 0) :
    parseEntry e = { name := derivedNameSpec e, target := e } := by
  have hstep : parseEntry e =
      { name :=
          (if !((splitChar '/' e).getLastD []).isEmpty then (splitChar '/' e).getLastD []
           else if !((splitChar ':' e).headD []).isEmpty then (splitChar ':' e).headD []
           else e),
        target := e } := by
    unfold parseEntry
    rw [countSep_zero_split '|' e h0]
    simp [he]
  rw [hstep, splitChar_getLastD, splitChar_headD]
  unfold derivedNameSpec afterLastSlash beforeFirstColon
  by_cases hp : (List.takeWhile (fun c => decide (c ≠ '/')) e.reverse).reverse = []
  · by_cases hq : List.takeWhile (fun c => decide (c ≠ ':')) e = []
    · simp [hp, hq]
    · simp [hp, hq]
  · simp [hp]

lemma parseEntry_eq_entrySpec (e : JStr) (he : jsTrim e = e)
    (hc : countSep '|' e ≤ 1) : parseEntry e = entrySpec e := by
  rcases (by omega : countSep '|' e = 0 ∨ countSep '|' e = 1) with h0 | h1
  · rw [parseEntry_nopipe e he h0]
    unfold entrySpec
    rw [if_neg (by omega)]
  · rw [parseEntry_onepipe e h1]
    unfold entrySpec
    rw [if_pos h1]

/-- Claim C10: parseTestConfig drops entries that trim to empty; an
entry with exactly one pipe yields its trimmed name and target; an entry
with no pipe yields itself as target, named by the substring after the
last slash, or (when that is empty) the substring before the first
colon, or the whole target. Stated for configuration strings whose
surviving entries contain at most one pipe, the only shapes the claim
describes. -/
theorem parseTestConfig_spec (s : JStr)
    (h : ∀ e ∈ ((splitChar ',' s).map jsTrim).filter (fun i => !i.isEmpty),
      countSep '|' e ≤ 1) :
    parseTestConfig s =
      (((splitChar ',' s).map jsTrim).filter (fun i => !i.isEmpty)).map entrySpec := by
  unfold parseTestConfig
  apply List.map_congr_left
  intro e he
  have hmem := he
  rw [List.mem_filter] at hmem
  obtain ⟨hmap, -⟩ := hmem
  rw [List.mem_map] at hmap
  obtain ⟨a, -, rfl⟩ := hmap
  exact parseEntry_eq_entrySpec _ (jsTrim_idem a) (h _ he)

/-- Claim C10 witness: a concrete configuration with one named entry, one
bare host:port entry and one empty entry parses as the claim says. -/
theorem parseTestConfig_spec_witness :
    parseTestConfig ("API|https://a.io/x, db.internal:5432,,".toList) =
      ((((splitChar ',' ("API|https://a.io/x, db.internal:5432,,".toList)).map
        jsTrim).filter (fun i => !i.isEmpty)).map entrySpec) :=
  parseTestConfig_spec _ (by decide)

end StatusBot
